import Mathlib

/-!
Verification of the bytecode data provider of the Hermes repository
(`include/hermes/BCGen/HBC/BytecodeDataProvider.h`): a read-only decoder
over an immutable byte buffer exposing per-function headers (compact or
overflow shape selected by a pointer tag bit), a compact/overflow string
table, exception-handler lookup, virtual-offset computation and a lazily
constructed debug-info object.

Memory is modelled abstractly: addresses are natural numbers, and an
environment `Mem` maps an address to the record that the C++ code would
obtain by `reinterpret_cast`-ing that address to the record type.  Record
layouts that live in headers outside the repository slice
(`BytecodeFileFormat.h`, `Support/StringTableEntry.h`) are modelled from
the spec and marked as such.
-/

/-- Modelled from the spec: the function-header flags byte of
`BytecodeFileFormat.h` (not in the repository slice).  The `overflowed`
bit selects the overflow shape; the spec also mentions an
exception-handler bit and a debug-info bit. -/
structure FunctionHeaderFlag where
  overflowed : Bool
  hasExceptionHandler : Bool
  hasDebugInfo : Bool
deriving DecidableEq

/-- Modelled from the spec: the large (overflow) function header of
`BytecodeFileFormat.h` (not in the repository slice), holding the logical
fields the spec lists: bytecode offset within the buffer, bytecode byte
length, parameter count, stack-frame size, environment size and a flags
byte. -/
structure FunctionHeader where
  offset : Nat
  paramCount : Nat
  bytecodeSizeInBytes : Nat
  frameSize : Nat
  environmentSize : Nat
  flags : FunctionHeaderFlag
deriving DecidableEq

/-- Modelled from the spec: the compact (small) function header of
`BytecodeFileFormat.h` (not in the repository slice): the same logical
fields in narrow encodings, one fixed-size slot per function index. -/
structure SmallFuncHeader where
  offset : Nat
  paramCount : Nat
  bytecodeSizeInBytes : Nat
  frameSize : Nat
  environmentSize : Nat
  flags : FunctionHeaderFlag
deriving DecidableEq

/-- Modelled from the spec: when a compact slot is overflowed it stores,
in place of real field data, the buffer offset of the separately located
large record (`SmallFuncHeader::getLargeHeaderOffset` of
`BytecodeFileFormat.h`, not in the repository slice); we model the stored
offset as the slot's `offset` field. -/
def SmallFuncHeader.getLargeHeaderOffset (s : SmallFuncHeader) : Nat :=
  s.offset

/-- Modelled from the spec: a compact string-table slot
(`SmallStringTableEntry`, not in the repository slice): narrow offset and
length fields, an encoding-width flag, an identifier flag and an overflow
flag. -/
structure SmallStringTableEntry where
  isUTF16 : Bool
  isIdentifier : Bool
  offset : Nat
  length : Nat
  overflowFlag : Bool
deriving DecidableEq

/-- The overflow predicate the decoder branches on
(`smallHeader.isOverflowed()`). -/
def SmallStringTableEntry.isOverflowed (s : SmallStringTableEntry) : Bool :=
  s.overflowFlag

/-- Modelled from the spec: an overflow string-table slot
(`OverflowStringTableEntry`, not in the repository slice): full-width
offset and length. -/
structure OverflowStringTableEntry where
  offset : Nat
  length : Nat
deriving DecidableEq

/-- Modelled from the spec: the uniform logical string descriptor
(`StringTableEntry` of `Support/StringTableEntry.h`, not in the
repository slice): byte offset into string storage, byte length,
encoding-width flag, identifier flag. -/
structure StringTableEntry where
  offset : Nat
  length : Nat
  isUTF16 : Bool
  isIdentifier : Bool
deriving DecidableEq

/-- Source `StringTableEntry(offset, length, isUTF16)`: the three-argument
constructor leaves the identifier flag clear. -/
def StringTableEntry.mkEntry (o l : Nat) (u : Bool) : StringTableEntry :=
  ⟨o, l, u, false⟩

/-- Source `StringTableEntry::markAsIdentifier`. -/
def StringTableEntry.markAsIdentifier (e : StringTableEntry) : StringTableEntry :=
  { e with isIdentifier := true }

/-- An exception-handler record (`HBCExceptionHandlerInfo`): start and
end of the guarded half-open bytecode range and the handler target
offset.  `end` is a Lean keyword, so the field is named `endOffset`. -/
structure HBCExceptionHandlerInfo where
  start : Nat
  endOffset : Nat
  target : Nat
deriving DecidableEq

/-- Abstract read-only memory: `xAt a` is the record obtained by
decoding the bytes starting at address `a` as an `x` record (the effect
of the C++ `reinterpret_cast` plus field reads). -/
structure Mem where
  smallFuncAt : Nat → SmallFuncHeader
  largeFuncAt : Nat → FunctionHeader
  smallStringAt : Nat → SmallStringTableEntry
  overflowStringAt : Nat → OverflowStringTableEntry

/-- Modelled from the spec: byte size of a compact function-header slot
(`sizeof(hbc::SmallFuncHeader)`, layout not in the repository slice).
The exact value is immaterial to the claims; it is even, as C++
alignment of a record of 32-bit fields guarantees. -/
def smallFuncHeaderByteSize : Nat := 16

/-- Modelled from the spec: byte size of a compact string-table slot
(`sizeof(hbc::SmallStringTableEntry)`, a packed 32-bit record). -/
def smallStringTableEntryByteSize : Nat := 4

/-- Modelled from the spec: byte size of an overflow string-table slot
(`sizeof(hbc::OverflowStringTableEntry)`, two 32-bit fields). -/
def overflowStringTableEntryByteSize : Nat := 8

/-- Source `RuntimeFunctionHeader`: a tagged, non-owning reference to a function
header.  `ptr` is the held address; a set low bit means the reference
points (one past) a large header. -/
structure RuntimeFunctionHeader where
  ptr : Nat
deriving DecidableEq

/-- Constructor from a small-header address (the C++ constructor taking
`const hbc::SmallFuncHeader *`); it asserts the tag bit is unset, which
holds because small slots are at even (aligned) addresses. -/
def RuntimeFunctionHeader.ofSmall (a : Nat) : RuntimeFunctionHeader :=
  ⟨a⟩

/-- Constructor from a large-header address (the C++ constructor taking
`const hbc::FunctionHeader *`): stores the nominal address plus one, so
the low bit of the held address is the shape tag. -/
def RuntimeFunctionHeader.ofLarge (a : Nat) : RuntimeFunctionHeader :=
  ⟨a + 1⟩

/-- Source `RuntimeFunctionHeader::isLarge`: the low bit of the held address. -/
def RuntimeFunctionHeader.isLarge (h : RuntimeFunctionHeader) : Bool :=
  h.ptr % 2 == 1

/-- Source `RuntimeFunctionHeader::asSmall`: reinterpret the held address as a
small header. -/
def RuntimeFunctionHeader.asSmall (h : RuntimeFunctionHeader) (m : Mem) :
    SmallFuncHeader :=
  m.smallFuncAt h.ptr

/-- Source `RuntimeFunctionHeader::asLarge`: subtract the one-byte tag from the
held address and reinterpret as a large header. -/
def RuntimeFunctionHeader.asLarge (h : RuntimeFunctionHeader) (m : Mem) :
    FunctionHeader :=
  m.largeFuncAt (h.ptr - 1)

/-- Field accessor generated by `HEADER_FIELD_ACCESSOR` for `offset`:
dispatch on the tag bit, read from the corresponding layout. -/
def RuntimeFunctionHeader.offset (h : RuntimeFunctionHeader) (m : Mem) : Nat :=
  if h.isLarge then (h.asLarge m).offset else (h.asSmall m).offset

/-- Field accessor for `paramCount`. -/
def RuntimeFunctionHeader.paramCount (h : RuntimeFunctionHeader) (m : Mem) : Nat :=
  if h.isLarge then (h.asLarge m).paramCount else (h.asSmall m).paramCount

/-- Field accessor for `bytecodeSizeInBytes`. -/
def RuntimeFunctionHeader.bytecodeSizeInBytes (h : RuntimeFunctionHeader) (m : Mem) :
    Nat :=
  if h.isLarge then (h.asLarge m).bytecodeSizeInBytes
  else (h.asSmall m).bytecodeSizeInBytes

/-- Field accessor for `frameSize`. -/
def RuntimeFunctionHeader.frameSize (h : RuntimeFunctionHeader) (m : Mem) : Nat :=
  if h.isLarge then (h.asLarge m).frameSize else (h.asSmall m).frameSize

/-- Field accessor for `environmentSize`. -/
def RuntimeFunctionHeader.environmentSize (h : RuntimeFunctionHeader) (m : Mem) :
    Nat :=
  if h.isLarge then (h.asLarge m).environmentSize
  else (h.asSmall m).environmentSize

/-- Field accessor for `flags`. -/
def RuntimeFunctionHeader.flags (h : RuntimeFunctionHeader) (m : Mem) :
    FunctionHeaderFlag :=
  if h.isLarge then (h.asLarge m).flags else (h.asSmall m).flags

/-- The pointer-valued state of a `BCProviderFromBuffer` (together with
the table counts of `BCProviderBase`): base address of the buffer,
addresses of the function-header and string tables, counts, the string
storage base, and the mutable lazily-built debug-info pointer.  The
per-function exception tables are spec-modelled (their locator lives in
`BytecodeDataProvider.cpp`, outside the repository slice). -/
structure BCProviderFromBuffer where
  bufferPtr_ : Nat
  functionHeaders_ : Nat
  stringTableEntries_ : Nat
  functionCount_ : Nat
  stringCount_ : Nat
  stringStorage_ : Nat
  exceptionTables_ : Nat → List HBCExceptionHandlerInfo
  debugInfo_ : Option Nat
  errstr_ : String

/-- Address of the compact function-header slot `functionHeaders_[i]`. -/
def smallFuncSlotAddr (p : BCProviderFromBuffer) (i : Nat) : Nat :=
  p.functionHeaders_ + i * smallFuncHeaderByteSize

/-- The compact slot backing function `i`. -/
def slotOf (m : Mem) (p : BCProviderFromBuffer) (i : Nat) : SmallFuncHeader :=
  m.smallFuncAt (smallFuncSlotAddr p i)

/-- The large record that an overflowed compact slot `i` points at:
buffer base plus the offset stored in the slot. -/
def largeOf (m : Mem) (p : BCProviderFromBuffer) (i : Nat) : FunctionHeader :=
  m.largeFuncAt (p.bufferPtr_ + (slotOf m p i).getLargeHeaderOffset)

/-- Source `BCProviderFromBuffer::getFunctionHeader`: read the compact slot; if
its overflow flag is set, resolve the large-record address from the slot
and return a tagged reference to the large record, otherwise a tagged
reference to the compact slot itself. -/
def getFunctionHeader (m : Mem) (p : BCProviderFromBuffer) (functionID : Nat) :
    RuntimeFunctionHeader :=
  let smallHeader := m.smallFuncAt (smallFuncSlotAddr p functionID)
  if smallHeader.flags.overflowed then
    RuntimeFunctionHeader.ofLarge (p.bufferPtr_ + smallHeader.getLargeHeaderOffset)
  else
    RuntimeFunctionHeader.ofSmall (smallFuncSlotAddr p functionID)

/-- Source `BCProviderFromBuffer::getBytecode`: buffer base plus the `offset`
field of the function's header. -/
def getBytecode (m : Mem) (p : BCProviderFromBuffer) (functionID : Nat) : Nat :=
  p.bufferPtr_ + (getFunctionHeader m p functionID).offset m

/-- Byte address of the compact string-table slot
`stringTableEntries_[index]`. -/
def smallStringSlotAddr (p : BCProviderFromBuffer) (index : Nat) : Nat :=
  p.stringTableEntries_ + index * smallStringTableEntryByteSize

/-- Byte address of the overflow string table: the C++ code casts
`stringTableEntries_ + stringCount_` (pointer arithmetic on compact
slots, so the byte address is the table base plus `stringCount_` compact
slot sizes) to `const OverflowStringTableEntry *`. -/
def overflowStringBaseAddr (p : BCProviderFromBuffer) : Nat :=
  p.stringTableEntries_ + p.stringCount_ * smallStringTableEntryByteSize

/-- Source `BCProviderFromBuffer::getStringTableEntry`: read the compact slot at
`index`; when overflowed, reuse the slot's `offset` field as an index
into the overflow table that starts right after the last compact slot,
taking offset and length from the overflow slot and the two flags from
the compact slot; otherwise take everything from the compact slot. -/
def getStringTableEntry (m : Mem) (p : BCProviderFromBuffer) (index : Nat) :
    StringTableEntry :=
  let smallHeader := m.smallStringAt (smallStringSlotAddr p index)
  if smallHeader.isOverflowed then
    let overflow := m.overflowStringAt
      (overflowStringBaseAddr p +
        smallHeader.offset * overflowStringTableEntryByteSize)
    let entry := StringTableEntry.mkEntry overflow.offset overflow.length
      smallHeader.isUTF16
    if smallHeader.isIdentifier then entry.markAsIdentifier else entry
  else
    let entry := StringTableEntry.mkEntry smallHeader.offset smallHeader.length
      smallHeader.isUTF16
    if smallHeader.isIdentifier then entry.markAsIdentifier else entry

/-- A non-owning view of characters (`llvm::StringRef`): start address
and length. -/
structure StringRef where
  ptr : Nat
  len : Nat
deriving DecidableEq

/-- Source `BCProviderBase::getStringRefFromID`: decode the table entry, then
view the string storage from `begin() + entry.getOffset()` for
`entry.getLength()` characters. -/
def getStringRefFromID (m : Mem) (p : BCProviderFromBuffer) (stringID : Nat) :
    StringRef :=
  let entry := getStringTableEntry m p stringID
  ⟨p.stringStorage_ + entry.offset, entry.length⟩

/-- Modelled from the spec: the magic constant of the bytecode file
header (`hbc::MAGIC` of `BytecodeFileFormat.h`, not in the repository
slice); per the spec it occupies the first four bytes of the file. -/
def MAGIC : Nat := 0xC103BC1F

/-- Modelled from the spec: `sizeof(hbc::BytecodeFileHeader)` (layout
not in the repository slice): the minimum number of bytes a bytecode
stream must have; encompasses the magic, the table counts and the table
offsets our model reads. -/
def bytecodeFileHeaderSize : Nat := 20

/-- Little-endian 32-bit read of bytes `pos .. pos+3` of a byte list
(missing bytes read as zero). -/
def readU32 (buf : List Nat) (pos : Nat) : Nat :=
  buf.getD pos 0 + 256 * buf.getD (pos + 1) 0 + 65536 * buf.getD (pos + 2) 0 +
    16777216 * buf.getD (pos + 3) 0

/-- Modelled from the spec: the fixed header fields our model uses, at
fixed little-endian positions — magic at byte 0, function count at 4,
function-header table offset at 8, string count at 12, string-table
offset at 16 (the true layout is in `BytecodeFileFormat.h`, outside the
repository slice; only magic-at-the-start is spec-mandated). -/
def readFunctionCount (buf : List Nat) : Nat := readU32 buf 4

/-- Header field: offset of the function-header table. -/
def readFunctionHeadersOffset (buf : List Nat) : Nat := readU32 buf 8

/-- Header field: number of strings. -/
def readStringCount (buf : List Nat) : Nat := readU32 buf 12

/-- Header field: offset of the string table. -/
def readStringTableOffset (buf : List Nat) : Nat := readU32 buf 16

/-- Modelled from the spec:
`BCProviderFromBuffer::bytecodeStreamSanityCheck` (implemented in
`BytecodeDataProvider.cpp`, outside the repository slice) — validates
minimum size, then the magic constant, then that each declared table
(offset plus count times slot size) fits within the buffer; `none` means
the stream is valid, `some msg` carries the human-readable diagnostic. -/
def bytecodeStreamSanityCheckFull (buf : List Nat) : Option String :=
  if buf.length < bytecodeFileHeaderSize then
    some "Buffer smaller than a bytecode file header"
  else if readU32 buf 0 ≠ MAGIC then
    some "Magic number mismatch"
  else if buf.length <
      readFunctionHeadersOffset buf +
        readFunctionCount buf * smallFuncHeaderByteSize then
    some "Function header table extends past the end of the buffer"
  else if buf.length <
      readStringTableOffset buf +
        readStringCount buf * smallStringTableEntryByteSize then
    some "String table extends past the end of the buffer"
  else
    none

/-- Modelled from the spec: the private
`BCProviderFromBuffer::BCProviderFromBuffer` constructor (implemented in
`BytecodeDataProvider.cpp`, outside the repository slice) — runs the
full sanity check; on failure it records the diagnostic in `errstr_` and
sets nothing else up; on success it locates every table from the header
and leaves `errstr_` empty. -/
def constructBCProviderFromBuffer (buf : List Nat) : BCProviderFromBuffer :=
  match bytecodeStreamSanityCheckFull buf with
  | some msg =>
    { bufferPtr_ := 0
      functionHeaders_ := 0
      stringTableEntries_ := 0
      functionCount_ := 0
      stringCount_ := 0
      stringStorage_ := 0
      exceptionTables_ := fun _ => []
      debugInfo_ := none
      errstr_ := msg }
  | none =>
    { bufferPtr_ := 0
      functionHeaders_ := readFunctionHeadersOffset buf
      stringTableEntries_ := readStringTableOffset buf
      functionCount_ := readFunctionCount buf
      stringCount_ := readStringCount buf
      stringStorage_ := 0
      exceptionTables_ := fun _ => []
      debugInfo_ := none
      errstr_ := "" }

/-- Source `BCProviderFromBuffer::createBCProviderFromBuffer`: run the
constructor, read its error string, and pair the container (or null)
with that string: `{errstr.empty() ? std::move(ret) : nullptr, errstr}`. -/
def createBCProviderFromBuffer (buf : List Nat) :
    Option BCProviderFromBuffer × String :=
  let ret := constructBCProviderFromBuffer buf
  let errstr := ret.errstr_
  (if errstr = "" then some ret else none, errstr)

/-- Source `BCProviderFromBuffer::isBytecodeStream` on a byte view: the view is
at least as long as the bytecode file header and the header's magic
field equals the magic constant. -/
def isBytecodeStream (aref : List Nat) : Bool :=
  aref.length ≥ bytecodeFileHeaderSize && readU32 aref 0 == MAGIC

/-- The external `Buffer` abstraction: an owned contiguous read-only
byte range, exposing `data()` and `size()`. -/
structure Buffer where
  data : List Nat

/-- The `isBytecodeStream` overload taking a `Buffer`: wraps the
buffer's data and size in a byte view and defers to the view overload. -/
def isBytecodeStreamBuffer (buffer : Buffer) : Bool :=
  isBytecodeStream buffer.data

/-- Does handler `e` guard fault offset `off`, i.e. is `off` within the
half-open range of `e`? -/
def containsB (e : HBCExceptionHandlerInfo) (off : Nat) : Bool :=
  decide (e.start ≤ off ∧ off < e.endOffset)

/-- Modelled from the spec: `BCProviderBase::findCatchTargetOffset`
(implemented in `BytecodeDataProvider.cpp`, outside the repository
slice) — scan the function's handler ranges and return the target of
the range containing the fault offset that appears latest in
handler-table order; `-1` when no range contains it. -/
def findCatchTargetOffset (p : BCProviderFromBuffer)
    (functionID exceptionOffset : Nat) : Int :=
  (p.exceptionTables_ functionID).foldl
    (fun acc e => if containsB e exceptionOffset then (e.target : Int) else acc)
    (-1)

/-- Modelled from the spec: `BCProviderBase::getVirtualOffsetForFunction`
(implemented in `BytecodeDataProvider.cpp`, outside the repository
slice) — accumulate the bytecode byte length of every function with a
smaller index. -/
def getVirtualOffsetForFunction (m : Mem) (p : BCProviderFromBuffer)
    (functionID : Nat) : Nat :=
  (List.range functionID).foldl
    (fun acc i => acc + (getFunctionHeader m p i).bytecodeSizeInBytes m) 0

/-- Result of one instrumented `getDebugInfo` call: the returned
pointer, the provider state afterwards, and how many times the virtual
construction hook `createDebugInfo` ran during the call. -/
structure GetDebugInfoResult where
  result : Option Nat
  state : BCProviderFromBuffer
  hookCalls : Nat

/-- Source `BCProviderBase::getDebugInfo`: if the cached pointer is null, run
the virtual hook `createDebugInfo` (modelled as a state transformer
`hook`, since its implementations live outside the repository slice),
then return the cached pointer.  The instrumentation counts hook
invocations of this one call. -/
def getDebugInfo (hook : BCProviderFromBuffer → BCProviderFromBuffer)
    (p : BCProviderFromBuffer) : GetDebugInfoResult :=
  if p.debugInfo_ = none then
    let p' := hook p
    ⟨p'.debugInfo_, p', 1⟩
  else
    ⟨p.debugInfo_, p, 0⟩

/-! ## Example fixtures used by witnesses -/

/-- Flag byte with every bit clear. -/
def exFlagsClear : FunctionHeaderFlag := ⟨false, false, false⟩

/-- Flag byte with only the overflow bit set. -/
def exFlagsOverflowed : FunctionHeaderFlag := ⟨true, false, false⟩

/-- Example memory: every compact function slot is non-overflowed with
fields derived from its address; every large record likewise; string
slot at address 0 is compact, every other string slot is overflowed and
points at overflow index 1. -/
def exMem : Mem where
  smallFuncAt := fun a => ⟨a + 100, 2, 50, 3, 4, exFlagsClear⟩
  largeFuncAt := fun a => ⟨a, 70000, 90000, 80000, 600, exFlagsClear⟩
  smallStringAt := fun a =>
    if a = 0 then ⟨false, true, 10, 3, false⟩ else ⟨true, false, 1, 255, true⟩
  overflowStringAt := fun a => ⟨a + 1000, a + 7⟩

/-- Example exception-handler table, the nested ranges of the spec:
enclosing-to-inner order. -/
def exTbl : List HBCExceptionHandlerInfo :=
  [⟨0, 100, 10⟩, ⟨20, 60, 20⟩, ⟨30, 40, 30⟩]

/-- Example provider over `exMem`, tables based at even addresses. -/
def exProvider : BCProviderFromBuffer where
  bufferPtr_ := 0
  functionHeaders_ := 0
  stringTableEntries_ := 0
  functionCount_ := 2
  stringCount_ := 2
  stringStorage_ := 5000
  exceptionTables_ := fun _ => exTbl
  debugInfo_ := none
  errstr_ := ""

/-- Example memory for the virtual-offset computation: three
non-overflowed functions with bytecode lengths 50, 30 and 20 at slot
addresses 0, 16 and 32. -/
def exMemVirtual : Mem where
  smallFuncAt := fun a =>
    ⟨0, 0, if a = 0 then 50 else if a = 16 then 30 else 20, 0, 0, exFlagsClear⟩
  largeFuncAt := fun _ => ⟨0, 0, 0, 0, 0, exFlagsClear⟩
  smallStringAt := fun _ => ⟨false, false, 0, 0, false⟩
  overflowStringAt := fun _ => ⟨0, 0⟩

/-- Example construction hook: caches debug-info token 5. -/
def exHook (p : BCProviderFromBuffer) : BCProviderFromBuffer :=
  { p with debugInfo_ := some 5 }

/-- Memory whose large records report their own start address as the
parameter count, separating reads at different addresses. -/
def exMemAddrSensitive : Mem where
  smallFuncAt := fun _ => ⟨0, 0, 0, 0, 0, exFlagsClear⟩
  largeFuncAt := fun a => ⟨0, a, 0, 0, 0, exFlagsClear⟩
  smallStringAt := fun _ => ⟨false, false, 0, 0, false⟩
  overflowStringAt := fun _ => ⟨0, 0⟩

/-- The large-record read as one spec sentence words it, for comparison
with the code: the large record is read starting one byte after its
nominal address `a` (a reserved lead byte). -/
def readLargeStartingOneByteAfterNominal (m : Mem) (a : Nat) : FunctionHeader :=
  m.largeFuncAt (a + 1)

/-- The string-entry decode as the spec words it, for comparison with
the code: read the compact slot at the index; if its overflow flag is
clear, offset, length and both flags come directly from the slot; if it
is set, the slot's stored offset field is reinterpreted as an index into
the overflow table located right after the last compact slot, the true
offset and length are read from that overflow slot, and the identifier
and encoding-width flags still come from the compact slot. -/
def stringDecodeSpec (m : Mem) (p : BCProviderFromBuffer) (index : Nat) :
    StringTableEntry :=
  let slot := m.smallStringAt (smallStringSlotAddr p index)
  if slot.isOverflowed then
    let ov := m.overflowStringAt
      (overflowStringBaseAddr p + slot.offset * overflowStringTableEntryByteSize)
    ⟨ov.offset, ov.length, slot.isUTF16, slot.isIdentifier⟩
  else
    ⟨slot.offset, slot.length, slot.isUTF16, slot.isIdentifier⟩

/-! ## Helper lemmas on the tagged reference -/

/-- A tagged reference built from an even (aligned) small-slot address
carries a clear tag bit. -/
theorem isLarge_ofSmall (a : Nat) (ha : a % 2 = 0) :
    (RuntimeFunctionHeader.ofSmall a).isLarge = false := by
  simp [RuntimeFunctionHeader.ofSmall, RuntimeFunctionHeader.isLarge, ha]

/-- A tagged reference built from an even (aligned) large-record address
carries a set tag bit. -/
theorem isLarge_ofLarge (a : Nat) (ha : a % 2 = 0) :
    (RuntimeFunctionHeader.ofLarge a).isLarge = true := by
  have h1 : (a + 1) % 2 = 1 := by omega
  simp [RuntimeFunctionHeader.ofLarge, RuntimeFunctionHeader.isLarge, h1]

/-- Every field accessor of a small-backed tagged reference reads the
small record at the held address. -/
theorem ofSmall_fields (m : Mem) (a : Nat) (ha : a % 2 = 0) :
    (RuntimeFunctionHeader.ofSmall a).offset m = (m.smallFuncAt a).offset ∧
    (RuntimeFunctionHeader.ofSmall a).paramCount m = (m.smallFuncAt a).paramCount ∧
    (RuntimeFunctionHeader.ofSmall a).bytecodeSizeInBytes m =
      (m.smallFuncAt a).bytecodeSizeInBytes ∧
    (RuntimeFunctionHeader.ofSmall a).frameSize m = (m.smallFuncAt a).frameSize ∧
    (RuntimeFunctionHeader.ofSmall a).environmentSize m =
      (m.smallFuncAt a).environmentSize ∧
    (RuntimeFunctionHeader.ofSmall a).flags m = (m.smallFuncAt a).flags := by
  refine ⟨?_, ?_, ?_, ?_, ?_, ?_⟩ <;>
    simp [RuntimeFunctionHeader.offset, RuntimeFunctionHeader.paramCount,
      RuntimeFunctionHeader.bytecodeSizeInBytes, RuntimeFunctionHeader.frameSize,
      RuntimeFunctionHeader.environmentSize, RuntimeFunctionHeader.flags,
      RuntimeFunctionHeader.isLarge, ha, RuntimeFunctionHeader.asSmall,
      RuntimeFunctionHeader.ofSmall]

/-- Every field accessor of a large-backed tagged reference reads the
large record at the nominal (untagged) address. -/
theorem ofLarge_fields (m : Mem) (a : Nat) (ha : a % 2 = 0) :
    (RuntimeFunctionHeader.ofLarge a).offset m = (m.largeFuncAt a).offset ∧
    (RuntimeFunctionHeader.ofLarge a).paramCount m = (m.largeFuncAt a).paramCount ∧
    (RuntimeFunctionHeader.ofLarge a).bytecodeSizeInBytes m =
      (m.largeFuncAt a).bytecodeSizeInBytes ∧
    (RuntimeFunctionHeader.ofLarge a).frameSize m = (m.largeFuncAt a).frameSize ∧
    (RuntimeFunctionHeader.ofLarge a).environmentSize m =
      (m.largeFuncAt a).environmentSize ∧
    (RuntimeFunctionHeader.ofLarge a).flags m = (m.largeFuncAt a).flags := by
  refine ⟨?_, ?_, ?_, ?_, ?_, ?_⟩ <;>
    simp [RuntimeFunctionHeader.offset, RuntimeFunctionHeader.paramCount,
      RuntimeFunctionHeader.bytecodeSizeInBytes, RuntimeFunctionHeader.frameSize,
      RuntimeFunctionHeader.environmentSize, RuntimeFunctionHeader.flags,
      RuntimeFunctionHeader.isLarge, RuntimeFunctionHeader.asLarge,
      RuntimeFunctionHeader.ofLarge, Nat.succ_mod_two_eq_one_iff.mpr ha]

/-- The slot address of function `i` is even whenever the table base is
even (slots have even size). -/
theorem smallFuncSlotAddr_even (p : BCProviderFromBuffer) (i : Nat)
    (ha : p.functionHeaders_ % 2 = 0) : smallFuncSlotAddr p i % 2 = 0 := by
  unfold smallFuncSlotAddr smallFuncHeaderByteSize
  omega

/-- Shape of `getFunctionHeader` on a non-overflowed slot. -/
theorem getFunctionHeader_eq_ofSmall (m : Mem) (p : BCProviderFromBuffer) (i : Nat)
    (hov : (slotOf m p i).flags.overflowed = false) :
    getFunctionHeader m p i =
      RuntimeFunctionHeader.ofSmall (smallFuncSlotAddr p i) := by
  unfold slotOf at hov
  simp [getFunctionHeader, hov]

/-- Shape of `getFunctionHeader` on an overflowed slot. -/
theorem getFunctionHeader_eq_ofLarge (m : Mem) (p : BCProviderFromBuffer) (i : Nat)
    (hov : (slotOf m p i).flags.overflowed = true) :
    getFunctionHeader m p i =
      RuntimeFunctionHeader.ofLarge
        (p.bufferPtr_ + (slotOf m p i).getLargeHeaderOffset) := by
  unfold slotOf at hov
  simp [getFunctionHeader, hov]
  rfl

/-! ## Helper lemmas on the catch-target scan -/

/-- Scanning ranges none of which guards the fault offset leaves the
accumulator unchanged. -/
theorem catchScan_no_match (l : List HBCExceptionHandlerInfo) (off : Nat)
    (acc : Int) (h : ∀ e ∈ l, containsB e off = false) :
    l.foldl (fun acc e => if containsB e off then (e.target : Int) else acc) acc
      = acc := by
  induction l generalizing acc with
  | nil => rfl
  | cons a l ih =>
    have ha : containsB a off = false := h a (List.mem_cons_self a l)
    simp only [List.foldl_cons, ha, Bool.false_eq_true, if_false]
    exact ih acc fun e he => h e (List.mem_cons_of_mem a he)

/-- When position `i` guards the fault offset and no later position
does, the scan ends at the target of position `i`, whatever the
accumulator was. -/
theorem catchScan_last_match (l : List HBCExceptionHandlerInfo) (off : Nat)
    (acc : Int) (i : Nat) (hi : i < l.length)
    (hqi : containsB (l.get ⟨i, hi⟩) off = true)
    (hafter : ∀ j, (hj : j < l.length) → i < j →
      containsB (l.get ⟨j, hj⟩) off = false) :
    l.foldl (fun acc e => if containsB e off then (e.target : Int) else acc) acc
      = ((l.get ⟨i, hi⟩).target : Int) := by
  induction l generalizing acc i with
  | nil => exact absurd hi (Nat.not_lt_zero i)
  | cons a l ih =>
    cases i with
    | zero =>
      simp only [List.get] at hqi
      simp only [List.foldl_cons, hqi, if_true, List.get]
      refine catchScan_no_match l off _ fun e he => ?_
      obtain ⟨⟨j, hj⟩, rfl⟩ := List.mem_iff_get.mp he
      exact hafter (j + 1) (by simpa using Nat.succ_lt_succ hj) (Nat.succ_pos j)
    | succ i' =>
      have hi' : i' < l.length := Nat.lt_of_succ_lt_succ hi
      simp only [List.get] at hqi ⊢
      simp only [List.foldl_cons]
      exact ih _ i' hi' hqi fun j hj hlt =>
        hafter (j + 1) (by simpa using Nat.succ_lt_succ hj)
          (Nat.succ_lt_succ hlt)

/-! ## Helper lemmas on construction -/

/-- Every diagnostic the sanity check can produce is non-empty. -/
theorem sanityCheck_msg_ne_empty (buf : List Nat) (msg : String)
    (h : bytecodeStreamSanityCheckFull buf = some msg) : msg ≠ "" := by
  unfold bytecodeStreamSanityCheckFull at h
  split_ifs at h <;> (obtain rfl := Option.some.inj h) <;> decide

/-! ## Claims -/

/-- Claim C1: for every function index, every logical field accessor of
the tagged reference returned by `getFunctionHeader` (offset, parameter
count, bytecode length, frame size, environment size, flags) returns
exactly the value stored in the physical record backing that function:
the compact slot when its overflow flag is clear, the resolved large
record when it is set — the accessor dispatches on the low tag bit of
the held address and reads from the corresponding layout.  The parity
hypotheses are the C++ alignment guarantees for the two record types. -/
theorem getFunctionHeader_reads_encoded_fields (m : Mem)
    (p : BCProviderFromBuffer) (i : Nat)
    (hsmall : p.functionHeaders_ % 2 = 0)
    (hlarge : (p.bufferPtr_ + (slotOf m p i).getLargeHeaderOffset) % 2 = 0) :
    ((slotOf m p i).flags.overflowed = false →
      (getFunctionHeader m p i).offset m = (slotOf m p i).offset ∧
      (getFunctionHeader m p i).paramCount m = (slotOf m p i).paramCount ∧
      (getFunctionHeader m p i).bytecodeSizeInBytes m =
        (slotOf m p i).bytecodeSizeInBytes ∧
      (getFunctionHeader m p i).frameSize m = (slotOf m p i).frameSize ∧
      (getFunctionHeader m p i).environmentSize m =
        (slotOf m p i).environmentSize ∧
      (getFunctionHeader m p i).flags m = (slotOf m p i).flags) ∧
    ((slotOf m p i).flags.overflowed = true →
      (getFunctionHeader m p i).offset m = (largeOf m p i).offset ∧
      (getFunctionHeader m p i).paramCount m = (largeOf m p i).paramCount ∧
      (getFunctionHeader m p i).bytecodeSizeInBytes m =
        (largeOf m p i).bytecodeSizeInBytes ∧
      (getFunctionHeader m p i).frameSize m = (largeOf m p i).frameSize ∧
      (getFunctionHeader m p i).environmentSize m =
        (largeOf m p i).environmentSize ∧
      (getFunctionHeader m p i).flags m = (largeOf m p i).flags) := by
  constructor
  · intro hov
    rw [getFunctionHeader_eq_ofSmall m p i hov]
    exact ofSmall_fields m (smallFuncSlotAddr p i)
      (smallFuncSlotAddr_even p i hsmall)
  · intro hov
    rw [getFunctionHeader_eq_ofLarge m p i hov]
    exact ofLarge_fields m (p.bufferPtr_ + (slotOf m p i).getLargeHeaderOffset)
      hlarge

/-- Claim C1 witness: on the concrete fixture, function 0 is backed by a
compact slot and the accessors report that slot's fields. -/
theorem getFunctionHeader_reads_encoded_fields_witness :
    exProvider.functionHeaders_ % 2 = 0 ∧
    (exProvider.bufferPtr_ +
      (slotOf exMem exProvider 0).getLargeHeaderOffset) % 2 = 0 ∧
    (slotOf exMem exProvider 0).flags.overflowed = false ∧
    ((getFunctionHeader exMem exProvider 0).paramCount exMem =
        (slotOf exMem exProvider 0).paramCount ∧
      (getFunctionHeader exMem exProvider 0).offset exMem =
        (slotOf exMem exProvider 0).offset) :=
  ⟨by decide, by decide, by decide,
    by
      have h := (getFunctionHeader_reads_encoded_fields exMem exProvider 0
        (by decide) (by decide)).1 (by decide)
      exact ⟨h.2.1, h.1⟩⟩

/-- Claim C5 counterexample: the claim as stated — the resolved large
record's fields are read starting one byte after the record's nominal
address — is the definition `readLargeStartingOneByteAfterNominal`
below; at nominal address 4, in a memory where the record at address 4
and the record at address 5 differ, the actual accessor returns the
field of the record at the nominal address 4, not the claimed one at 5. -/
theorem largeRead_not_one_byte_after_nominal :
    (RuntimeFunctionHeader.ofLarge 4).paramCount exMemAddrSensitive ≠
      (readLargeStartingOneByteAfterNominal exMemAddrSensitive 4).paramCount := by
  decide

/-- Claim C5 (amended): the tagged reference to a resolved large record
holds the record's nominal address plus one byte — the low bit of the
held address being the shape tag — and every dereference first subtracts
that byte, so fields are read starting at the nominal address itself;
the held pointer is never dereferenced without the minus-one
adjustment. -/
theorem ofLarge_stores_tagged_and_reads_nominal (m : Mem) (a : Nat)
    (ha : a % 2 = 0) :
    (RuntimeFunctionHeader.ofLarge a).ptr = a + 1 ∧
    (RuntimeFunctionHeader.ofLarge a).isLarge = true ∧
    (RuntimeFunctionHeader.ofLarge a).asLarge m = m.largeFuncAt a := by
  refine ⟨rfl, isLarge_ofLarge a ha, ?_⟩
  simp [RuntimeFunctionHeader.asLarge, RuntimeFunctionHeader.ofLarge]

/-- Claim C5 witness: the amended statement at nominal address 4 over
the concrete fixture memory. -/
theorem ofLarge_stores_tagged_and_reads_nominal_witness :
    (4 : Nat) % 2 = 0 ∧
    (RuntimeFunctionHeader.ofLarge 4).ptr = 5 ∧
    (RuntimeFunctionHeader.ofLarge 4).asLarge exMemAddrSensitive =
      exMemAddrSensitive.largeFuncAt 4 :=
  ⟨by decide,
    (ofLarge_stores_tagged_and_reads_nominal exMemAddrSensitive 4 (by decide)).1,
    (ofLarge_stores_tagged_and_reads_nominal exMemAddrSensitive 4
      (by decide)).2.2⟩

/-- Claim C9: `getBytecode` returns the buffer base plus the `offset`
field of the function's header, and — spelled out per physical shape —
that offset is the compact slot's offset field when the slot is not
overflowed and the large record's offset field when it is. -/
theorem getBytecode_base_plus_offset (m : Mem) (p : BCProviderFromBuffer)
    (functionID : Nat) (hsmall : p.functionHeaders_ % 2 = 0)
    (hlarge : (p.bufferPtr_ +
      (slotOf m p functionID).getLargeHeaderOffset) % 2 = 0) :
    getBytecode m p functionID =
      p.bufferPtr_ + (getFunctionHeader m p functionID).offset m ∧
    ((slotOf m p functionID).flags.overflowed = false →
      getBytecode m p functionID =
        p.bufferPtr_ + (slotOf m p functionID).offset) ∧
    ((slotOf m p functionID).flags.overflowed = true →
      getBytecode m p functionID =
        p.bufferPtr_ + (largeOf m p functionID).offset) := by
  refine ⟨rfl, fun hov => ?_, fun hov => ?_⟩
  · unfold getBytecode
    rw [getFunctionHeader_eq_ofSmall m p functionID hov]
    rw [(ofSmall_fields m (smallFuncSlotAddr p functionID)
      (smallFuncSlotAddr_even p functionID hsmall)).1]
    rfl
  · unfold getBytecode
    rw [getFunctionHeader_eq_ofLarge m p functionID hov]
    rw [(ofLarge_fields m
      (p.bufferPtr_ + (slotOf m p functionID).getLargeHeaderOffset) hlarge).1]
    rfl

/-- Claim C9 witness: on the concrete fixture, bytecode of function 0
starts at buffer base plus the compact slot's offset field (the slot at
address 0 stores offset 100). -/
theorem getBytecode_base_plus_offset_witness :
    exProvider.functionHeaders_ % 2 = 0 ∧
    (slotOf exMem exProvider 0).flags.overflowed = false ∧
    getBytecode exMem exProvider 0 =
      exProvider.bufferPtr_ + (slotOf exMem exProvider 0).offset :=
  ⟨by decide, by decide,
    (getBytecode_base_plus_offset exMem exProvider 0 (by decide)
      (by decide)).2.1 (by decide)⟩

/-- Claim C2: `getStringTableEntry` reads the compact slot at the index;
with the overflow flag clear, offset, length, UTF-16 flag and identifier
flag come directly from that slot; with it set, the slot's offset field
indexes the overflow table that starts immediately after the last
compact slot — at `stringTableEntries_ + stringCount_` compact-slot
sizes past the table base — the returned offset and length come from
that overflow slot, and both flags still come from the compact slot;
equivalently, the decode equals the spec-worded decode, and the overflow
base really sits right after the compact table. -/
theorem getStringTableEntry_decodes (m : Mem) (p : BCProviderFromBuffer)
    (index : Nat) :
    getStringTableEntry m p index = stringDecodeSpec m p index ∧
    overflowStringBaseAddr p =
      p.stringTableEntries_ + p.stringCount_ * smallStringTableEntryByteSize := by
  refine ⟨?_, rfl⟩
  unfold getStringTableEntry stringDecodeSpec
  cases hov : (m.smallStringAt (smallStringSlotAddr p index)).isOverflowed <;>
    cases hid : (m.smallStringAt (smallStringSlotAddr p index)).isIdentifier <;>
      simp [hov, hid, StringTableEntry.mkEntry, StringTableEntry.markAsIdentifier]

/-- Claim C10: `getStringRefFromID` is exactly the composition of the
string-table decode with a slice of the global string storage: the view
starts at the storage base advanced by the decoded offset and has the
decoded length, in both the compact and the overflow case. -/
theorem getStringRefFromID_slices_storage (m : Mem) (p : BCProviderFromBuffer)
    (stringID : Nat) :
    getStringRefFromID m p stringID =
      ⟨p.stringStorage_ + (getStringTableEntry m p stringID).offset,
        (getStringTableEntry m p stringID).length⟩ ∧
    ((m.smallStringAt (smallStringSlotAddr p stringID)).isOverflowed = false →
      getStringRefFromID m p stringID =
        ⟨p.stringStorage_ +
            (m.smallStringAt (smallStringSlotAddr p stringID)).offset,
          (m.smallStringAt (smallStringSlotAddr p stringID)).length⟩) ∧
    ((m.smallStringAt (smallStringSlotAddr p stringID)).isOverflowed = true →
      getStringRefFromID m p stringID =
        ⟨p.stringStorage_ +
            (m.overflowStringAt (overflowStringBaseAddr p +
              (m.smallStringAt (smallStringSlotAddr p stringID)).offset *
                overflowStringTableEntryByteSize)).offset,
          (m.overflowStringAt (overflowStringBaseAddr p +
            (m.smallStringAt (smallStringSlotAddr p stringID)).offset *
              overflowStringTableEntryByteSize)).length⟩) := by
  refine ⟨rfl, fun hov => ?_, fun hov => ?_⟩ <;>
    unfold getStringRefFromID getStringTableEntry <;>
      cases hid : (m.smallStringAt (smallStringSlotAddr p stringID)).isIdentifier <;>
        simp [hov, hid, StringTableEntry.mkEntry, StringTableEntry.markAsIdentifier]

/-- Claim C10 witness: string 0 of the fixture is compact with offset 10
and length 3, and its view starts at storage base 5000 plus 10. -/
theorem getStringRefFromID_slices_storage_witness :
    (exMem.smallStringAt (smallStringSlotAddr exProvider 0)).isOverflowed
      = false ∧
    getStringRefFromID exMem exProvider 0 = ⟨5010, 3⟩ := by
  refine ⟨by decide, ?_⟩
  rw [(getStringRefFromID_slices_storage exMem exProvider 0).2.1 (by decide)]
  decide

/-- A passing sanity check means none of the malformation conditions
holds. -/
theorem sanityCheck_none_conditions (buf : List Nat)
    (h : bytecodeStreamSanityCheckFull buf = none) :
    ¬ buf.length < bytecodeFileHeaderSize ∧ readU32 buf 0 = MAGIC ∧
    ¬ buf.length < readFunctionHeadersOffset buf +
      readFunctionCount buf * smallFuncHeaderByteSize ∧
    ¬ buf.length < readStringTableOffset buf +
      readStringCount buf * smallStringTableEntryByteSize := by
  unfold bytecodeStreamSanityCheckFull at h
  split_ifs at h with h1 h2 h3 h4
  simp_all

/-- Claim C3: `createBCProviderFromBuffer` returns either a fully
constructed container paired with an empty error string or a null
container paired with a non-empty diagnostic; the container is null
exactly when the error string of the construction attempt is non-empty,
and a malformed buffer — too short, wrong magic, or a table reaching
past the end of the buffer — always yields the null-plus-diagnostic
outcome. -/
theorem createBCProviderFromBuffer_null_iff_error (buf : List Nat) :
    ((createBCProviderFromBuffer buf).1 = none ↔
      (createBCProviderFromBuffer buf).2 ≠ "") ∧
    (∀ c, (createBCProviderFromBuffer buf).1 = some c →
      c = constructBCProviderFromBuffer buf ∧ c.errstr_ = "" ∧
      (createBCProviderFromBuffer buf).2 = "") ∧
    ((buf.length < bytecodeFileHeaderSize ∨ readU32 buf 0 ≠ MAGIC ∨
      buf.length < readFunctionHeadersOffset buf +
        readFunctionCount buf * smallFuncHeaderByteSize ∨
      buf.length < readStringTableOffset buf +
        readStringCount buf * smallStringTableEntryByteSize) →
      (createBCProviderFromBuffer buf).1 = none ∧
      (createBCProviderFromBuffer buf).2 ≠ "") := by
  cases hs : bytecodeStreamSanityCheckFull buf with
  | none =>
    have hcerr : (constructBCProviderFromBuffer buf).errstr_ = "" := by
      unfold constructBCProviderFromBuffer
      rw [hs]
    have hcr : createBCProviderFromBuffer buf =
        (some (constructBCProviderFromBuffer buf), "") := by
      simp [createBCProviderFromBuffer, hcerr]
    rw [hcr]
    refine ⟨by simp, fun c h => ?_, fun mal => ?_⟩
    · simp only [Option.some.injEq] at h
      exact ⟨h.symm, h ▸ hcerr, rfl⟩
    · exfalso
      obtain ⟨h1, h2, h3, h4⟩ := sanityCheck_none_conditions buf hs
      rcases mal with m1 | m2 | m3 | m4
      · exact h1 m1
      · exact m2 h2
      · exact h3 m3
      · exact h4 m4
  | some msg =>
    have hmsg := sanityCheck_msg_ne_empty buf msg hs
    have hcerr : (constructBCProviderFromBuffer buf).errstr_ = msg := by
      unfold constructBCProviderFromBuffer
      rw [hs]
    have hcr : createBCProviderFromBuffer buf = (none, msg) := by
      simp [createBCProviderFromBuffer, hcerr, hmsg]
    rw [hcr]
    exact ⟨by simpa using hmsg, fun c h => by simp at h, fun _ => ⟨rfl, hmsg⟩⟩

/-- Claim C3 witness: the empty buffer is shorter than the minimum
header, and construction yields the null container with a non-empty
diagnostic. -/
theorem createBCProviderFromBuffer_null_iff_error_witness :
    ([] : List Nat).length < bytecodeFileHeaderSize ∧
    ((createBCProviderFromBuffer []).1 = none ∧
      (createBCProviderFromBuffer []).2 ≠ "") :=
  ⟨by decide,
    (createBCProviderFromBuffer_null_iff_error []).2.2 (Or.inl (by decide))⟩

/-- Claim C4: the catch-target lookup returns the target of the last
entry, in handler-table order for the function, whose half-open range
contains the fault offset, and the sentinel -1 when no range contains
it. -/
theorem findCatchTargetOffset_innermost (p : BCProviderFromBuffer)
    (functionID exceptionOffset : Nat) :
    ((∀ e ∈ p.exceptionTables_ functionID, containsB e exceptionOffset = false) →
      findCatchTargetOffset p functionID exceptionOffset = -1) ∧
    (∀ i, (hi : i < (p.exceptionTables_ functionID).length) →
      containsB ((p.exceptionTables_ functionID).get ⟨i, hi⟩) exceptionOffset
        = true →
      (∀ j, (hj : j < (p.exceptionTables_ functionID).length) → i < j →
        containsB ((p.exceptionTables_ functionID).get ⟨j, hj⟩) exceptionOffset
          = false) →
      findCatchTargetOffset p functionID exceptionOffset =
        (((p.exceptionTables_ functionID).get ⟨i, hi⟩).target : Int)) := by
  constructor
  · intro h
    exact catchScan_no_match (p.exceptionTables_ functionID) exceptionOffset
      (-1) h
  · intro i hi hq ha
    exact catchScan_last_match (p.exceptionTables_ functionID) exceptionOffset
      (-1) i hi hq ha

/-- Claim C4 witness: the spec's nested ranges `[0,100) -> 10`,
`[20,60) -> 20`, `[30,40) -> 30`: a fault at 35 resolves to the
innermost (last-listed) target 30, and a fault at 150 to the sentinel. -/
theorem findCatchTargetOffset_innermost_witness :
    containsB ⟨30, 40, 30⟩ 35 = true ∧
    findCatchTargetOffset exProvider 0 35 = 30 ∧
    findCatchTargetOffset exProvider 0 150 = -1 := by
  refine ⟨by decide, ?_,
    (findCatchTargetOffset_innermost exProvider 0 150).1 (by decide)⟩
  rw [(findCatchTargetOffset_innermost exProvider 0 35).2 2 (by decide)
    (by decide) (by decide)]
  decide

/-- Claim C6: the virtual offset of a function is the sum of the
bytecode byte lengths of every function with a strictly smaller index;
function 0 has virtual offset 0, and for three functions with lengths
50, 30 and 20 the virtual offsets are 0, 50 and 80. -/
theorem getVirtualOffsetForFunction_is_sum (m : Mem)
    (p : BCProviderFromBuffer) :
    (∀ functionID, getVirtualOffsetForFunction m p functionID =
      ∑ i in Finset.range functionID,
        (getFunctionHeader m p i).bytecodeSizeInBytes m) ∧
    getVirtualOffsetForFunction m p 0 = 0 ∧
    getVirtualOffsetForFunction exMemVirtual exProvider 0 = 0 ∧
    getVirtualOffsetForFunction exMemVirtual exProvider 1 = 50 ∧
    getVirtualOffsetForFunction exMemVirtual exProvider 2 = 80 := by
  refine ⟨fun functionID => ?_, rfl, by decide, by decide, by decide⟩
  induction functionID with
  | zero => simp [getVirtualOffsetForFunction]
  | succ n ih =>
    unfold getVirtualOffsetForFunction at ih ⊢
    rw [List.range_succ, List.foldl_append, Finset.sum_range_succ, ih]
    simp

/-- Claim C7: the byte-view probe accepts exactly the views whose size
is at least the bytecode file header size and whose leading magic field
equals the magic constant, and the Buffer overload gives the same answer
as the byte-view overload on the buffer's data. -/
theorem isBytecodeStream_iff_header_magic :
    (∀ aref : List Nat, isBytecodeStream aref = true ↔
      (bytecodeFileHeaderSize ≤ aref.length ∧ readU32 aref 0 = MAGIC)) ∧
    (∀ buffer : Buffer,
      isBytecodeStreamBuffer buffer = isBytecodeStream buffer.data) := by
  refine ⟨fun aref => ?_, fun buffer => rfl⟩
  simp [isBytecodeStream, ge_iff_le, Bool.and_eq_true, decide_eq_true_eq,
    beq_iff_eq]

/-- Claim C8: under single-threaded access, the first `getDebugInfo`
call on a provider with no cached pointer runs the construction hook
once; provided the hook establishes a non-null cached pointer, the
second call runs the hook zero times, returns the identical cached
pointer, and leaves the state unchanged. -/
theorem getDebugInfo_hook_at_most_once
    (hook : BCProviderFromBuffer → BCProviderFromBuffer)
    (p : BCProviderFromBuffer) (d : Nat) (h0 : p.debugInfo_ = none)
    (h1 : (hook p).debugInfo_ = some d) :
    (getDebugInfo hook p).hookCalls = 1 ∧
    (getDebugInfo hook p).result = some d ∧
    (getDebugInfo hook (getDebugInfo hook p).state).hookCalls = 0 ∧
    (getDebugInfo hook (getDebugInfo hook p).state).result = some d ∧
    (getDebugInfo hook (getDebugInfo hook p).state).state =
      (getDebugInfo hook p).state := by
  simp [getDebugInfo, h0, h1]

/-- Claim C8 witness: with the concrete hook that caches token 5 and a
fresh fixture provider, the first call invokes the hook once and the
second call invokes it zero times, both returning token 5. -/
theorem getDebugInfo_hook_at_most_once_witness :
    exProvider.debugInfo_ = none ∧
    (exHook exProvider).debugInfo_ = some 5 ∧
    (getDebugInfo exHook exProvider).hookCalls = 1 ∧
    (getDebugInfo exHook (getDebugInfo exHook exProvider).state).hookCalls
      = 0 ∧
    (getDebugInfo exHook (getDebugInfo exHook exProvider).state).result
      = some 5 :=
  ⟨rfl, rfl,
    (getDebugInfo_hook_at_most_once exHook exProvider 5 rfl rfl).1,
    (getDebugInfo_hook_at_most_once exHook exProvider 5 rfl rfl).2.2.1,
    (getDebugInfo_hook_at_most_once exHook exProvider 5 rfl rfl).2.2.2.1⟩
